import Mathlib

/-!
# Verification of the `noise` secure-channel component (dmsg)

A shallow embedding of `noise/noise.go`: the `Noise` struct, its transport
operations `EncryptUnsafe` / `DecryptUnsafe`, the handshake drivers
`HandshakeMessage` / `ProcessMessage`, and the accessor `RemoteStatic`.

Modelling conventions:
* Go byte slices are `List Nat`; each element is taken modulo 256 where Go's
  `byte` type would truncate.
* `uint64` arithmetic is `Nat` arithmetic modulo `2 ^ 64` (`u64`), made
  explicit at every update.
* The external `flynn/noise` cryptographic primitives (the AEAD cipher of a
  cipher state, and the handshake-state `WriteMessage` / `ReadMessage`) are
  trusted primitives outside this repository; they appear as opaque
  functional parameters (`AEAD`, the `wm` / `rm` oracles).  All control flow,
  state updates and framing of `noise.go` itself are modelled exactly.
* A Go `panic` is a distinguished result constructor, never a value.
-/

namespace DmsgNoise

/-- `uint64` modulus. -/
def u64 : Nat := 2 ^ 64

/-- `nonceSize` from noise.go: the nonce size in bytes. -/
def nonceSize : Nat := 8

/-- `binary.BigEndian.PutUint64`: the 8-byte big-endian encoding of `v`
(Go truncates `v` to `uint64`; each byte is `< 256`). -/
def putUint64BE (v : Nat) : List Nat :=
  [v / 2 ^ 56 % 256, v / 2 ^ 48 % 256, v / 2 ^ 40 % 256, v / 2 ^ 32 % 256,
   v / 2 ^ 24 % 256, v / 2 ^ 16 % 256, v / 2 ^ 8 % 256, v % 256]

/-- `binary.BigEndian.Uint64` on the first 8 bytes of `b`
(each element reduced mod 256, as Go's `byte` type guarantees). -/
def beUint64 (b : List Nat) : Nat :=
  (b.take 8).foldl (fun acc x => acc * 256 + x % 256) 0

/-- An opaque `noise.CipherState` (the derived symmetric state of one
direction); only its identity matters to this component. -/
structure CipherState where
  id : Nat
deriving DecidableEq, Repr

/-- The trusted AEAD primitive of a cipher state
(`cs.Cipher().Encrypt` and `cs.Cipher().Decrypt`, with explicit nonce and
associated-data arguments). `decrypt` returns `none` on authentication
failure. -/
structure AEAD where
  encrypt : CipherState → Nat → List Nat → List Nat → List Nat
  decrypt : CipherState → Nat → List Nat → List Nat → Option (List Nat)

/-- The `Noise` struct of noise.go.  `patternLen` is
`len(ns.pattern.Messages)`, `hsIdx` is `ns.hs.MessageIndex()`, and
`peerStatic` is `ns.hs.PeerStatic()` (empty before the handshake reveals
the remote static key).  `enc` / `dec` are the send / receive cipher
states (nil pointers before the final handshake step), and
`encNonce` / `decNonce` the two `uint64` sequence counters. -/
structure Noise where
  pk : List Nat
  sk : List Nat
  init : Bool
  patternLen : Nat
  hsIdx : Nat
  peerStatic : List Nat
  enc : Option CipherState
  dec : Option CipherState
  encNonce : Nat
  decNonce : Nat
deriving DecidableEq, Repr

/-- `HandshakeFinished` from noise.go:
`ns.hs.MessageIndex() == len(ns.pattern.Messages)`. -/
def HandshakeFinished (ns : Noise) : Bool :=
  ns.hsIdx == ns.patternLen

/-- `EncryptUnsafe` from noise.go:
`nonce := atomic.AddUint64(&ns.encNonce, 1)`, then the 8-byte big-endian
`nonce` header is prepended to
`ns.enc.Cipher().Encrypt(nil, nonce, nil, plaintext)`.
The first component is `none` exactly when `ns.enc` is nil and Go would
panic on the nil dereference (the counter was already incremented). -/
def EncryptUnsafe (aead : AEAD) (ns : Noise) (plaintext : List Nat) :
    Option (List Nat) × Noise :=
  let nonce := (ns.encNonce + 1) % u64
  let ns1 := { ns with encNonce := nonce }
  match ns1.enc with
  | none => (none, ns1)
  | some cs => (some (putUint64BE nonce ++ aead.encrypt cs nonce [] plaintext), ns1)

/-- The message of the explicit `panic` in `DecryptUnsafe` for a non-empty
input shorter than `nonceSize` bytes. -/
def shortCiphertextPanic : String :=
  "noise decrypt unsafe: cipher text cannot be less than 8 bytes"

/-- Message standing for Go's nil-pointer dereference of `ns.dec` when
`DecryptUnsafe` reaches the decryption step before the handshake derived
cipher states. -/
def nilCipherStatePanic : String := "runtime error: invalid memory address"

/-- The possible outcomes of `DecryptUnsafe` in Go:
`ok pt` is the `(pt, nil)` return (`ok []` covers the
`make([]byte, 0), nil` empty-input return), `rejected` is the `nil, nil`
replay return, `decErr` is a non-nil error from the AEAD `Decrypt`, and
`panicked` is a Go panic. -/
inductive DecryptResult where
  | ok : List Nat → DecryptResult
  | rejected : DecryptResult
  | decErr : DecryptResult
  | panicked : String → DecryptResult
deriving DecidableEq, Repr

/-- `DecryptUnsafe` from noise.go, line by line:
empty input returns `(make([]byte, 0), nil)`;
non-empty input shorter than `nonceSize` panics;
`recvSeq` is the big-endian value of the first 8 bytes;
`lastSeq := atomic.AddUint64(&ns.decNonce, 1) - 1` (the counter is advanced
even on rejection; the `- 1` wraps in `uint64` arithmetic);
`recvSeq <= lastSeq` is the replay rejection returning `nil, nil`;
`atomic.CompareAndSwapUint64(&ns.decNonce, lastSeq, recvSeq)` swaps only if
the counter currently equals `lastSeq`;
finally `ns.dec.Cipher().Decrypt(nil, recvSeq, nil, ciphertext[nonceSize:])`
(a nil `ns.dec` panics at this dereference). -/
def DecryptUnsafe (aead : AEAD) (ns : Noise) (ciphertext : List Nat) :
    DecryptResult × Noise :=
  if ciphertext.length = 0 then
    (DecryptResult.ok [], ns)
  else if ciphertext.length < nonceSize then
    (DecryptResult.panicked shortCiphertextPanic, ns)
  else
    let recvSeq := beUint64 (ciphertext.take nonceSize)
    let added := (ns.decNonce + 1) % u64
    let lastSeq := (added + (u64 - 1)) % u64
    let ns1 := { ns with decNonce := added }
    if recvSeq ≤ lastSeq then
      (DecryptResult.rejected, ns1)
    else
      let ns2 := if ns1.decNonce = lastSeq then { ns1 with decNonce := recvSeq % u64 } else ns1
      match ns2.dec with
      | none => (DecryptResult.panicked nilCipherStatePanic, ns2)
      | some cs =>
        match aead.decrypt cs recvSeq [] (ciphertext.drop nonceSize) with
        | some pt => (DecryptResult.ok pt, ns2)
        | none => (DecryptResult.decErr, ns2)

/-- `HandshakeMessage` from noise.go.  `wm` models the trusted
`ns.hs.WriteMessage(nil, nil)` as a deterministic oracle of the current
message index: it yields the outbound message and the two cipher states of
the final `Split` (meaningful only on the pattern's last message), or
`none` for the error return.  On success `MessageIndex` advances by one.
Only on the last message (`MessageIndex() == len(pattern.Messages) - 1`)
does the code store the returned pair, as `res, ns.dec, ns.enc, err`. -/
def HandshakeMessage (wm : Nat → Option (List Nat × CipherState × CipherState))
    (ns : Noise) : Option (List Nat × Noise) :=
  if (ns.hsIdx : Int) < (ns.patternLen : Int) - 1 then
    match wm ns.hsIdx with
    | some r => some (r.1, { ns with hsIdx := ns.hsIdx + 1 })
    | none => none
  else
    match wm ns.hsIdx with
    | some r =>
        some (r.1, { ns with hsIdx := ns.hsIdx + 1, dec := some r.2.1, enc := some r.2.2 })
    | none => none

/-- `ProcessMessage` from noise.go.  `rm` models the trusted
`ns.hs.ReadMessage(nil, msg)` as an oracle of the current message index and
the inbound message, yielding the two cipher states of the final `Split`
(or `none` for the error return).  Only on the last message does the code
store the returned pair, as `_, ns.enc, ns.dec, err` — the swapped
assignment relative to `HandshakeMessage`. -/
def ProcessMessage (rm : Nat → List Nat → Option (CipherState × CipherState))
    (ns : Noise) (msg : List Nat) : Option Noise :=
  if (ns.hsIdx : Int) < (ns.patternLen : Int) - 1 then
    match rm ns.hsIdx msg with
    | some _ => some { ns with hsIdx := ns.hsIdx + 1 }
    | none => none
  else
    match rm ns.hsIdx msg with
    | some r => some { ns with hsIdx := ns.hsIdx + 1, enc := some r.1, dec := some r.2 }
    | none => none

/-- Modelled from the spec: the fixed public-key length of the repository's
`cipher` package (not under src/).  The spec only requires "an opaque
fixed-length public key"; 33 bytes is the compressed-point length of the
secp256k1 curve named in noise.go. -/
def pubKeySize : Nat := 33

/-- The error text of `cipher.NewPubKey` for a byte slice of the wrong
length. -/
def invalidPubKeyError : String := "Invalid public key length"

/-- Modelled from the spec: `cipher.NewPubKey` from the repository's
`cipher` package (not under src/): it constructs a public key from raw
bytes and fails when the input is not of the fixed public-key length (in
particular on the empty slice returned by `PeerStatic()` before the
handshake reveals the remote key). -/
def NewPubKey (b : List Nat) : Except String (List Nat) :=
  if b.length = pubKeySize then Except.ok b else Except.error invalidPubKeyError

/-- Outcome of `RemoteStatic`: either a public key is returned or the call
panics — the Go function has no error return. -/
inductive RemoteStaticResult where
  | ok : List Nat → RemoteStaticResult
  | panicked : String → RemoteStaticResult
deriving DecidableEq, Repr

/-- `RemoteStatic` from noise.go:
`pk, err := cipher.NewPubKey(ns.hs.PeerStatic()); if err != nil { panic(err) }`. -/
def RemoteStatic (ns : Noise) : RemoteStaticResult :=
  match NewPubKey ns.peerStatic with
  | Except.ok pk => RemoteStaticResult.ok pk
  | Except.error e => RemoteStaticResult.panicked e

/-- `LocalStatic` from noise.go. -/
def LocalStatic (ns : Noise) : List Nat :=
  ns.pk

/-- A trivial AEAD instance (ciphertext equals plaintext) used to evaluate
the channel logic on concrete inputs. -/
def idAEAD : AEAD where
  encrypt := fun _ _ _ pt => pt
  decrypt := fun _ _ _ ct => some ct

/-- A channel that has just entered transport mode: both cipher states
present, both counters zero. -/
def transportChannel : Noise :=
  { pk := [], sk := [], init := true, patternLen := 2, hsIdx := 2,
    peerStatic := [], enc := some ⟨1⟩, dec := some ⟨2⟩, encNonce := 0, decNonce := 0 }

/-- The peer of `transportChannel` after it has already produced ten
transport messages: its send cipher state is `transportChannel`'s receive
cipher state and its send counter is 10. -/
def replaySender : Noise :=
  { pk := [], sk := [], init := false, patternLen := 2, hsIdx := 2,
    peerStatic := [], enc := some ⟨2⟩, dec := some ⟨1⟩, encNonce := 10, decNonce := 0 }

/-- `transportChannel` after accepting the message with counter 10 (its
prior receive history for the replay scenario). -/
def replayReceiver : Noise :=
  (DecryptUnsafe idAEAD transportChannel (putUint64BE 10 ++ [0])).2

/-- The channel state after `k` consecutive `EncryptUnsafe` calls with
plaintexts `pts 0, …, pts (k-1)`. -/
def iterEnc (aead : AEAD) (pts : Nat → List Nat) (ns : Noise) : Nat → Noise
  | 0 => ns
  | k + 1 => (EncryptUnsafe aead (iterEnc aead pts ns k) (pts k)).2

/-- The result and new receive counter of `DecryptUnsafe` as a function of
the only channel components it reads: `ns.dec` and `ns.decNonce`. -/
def decryptCore (aead : AEAD) (dec : Option CipherState) (decNonce : Nat)
    (ciphertext : List Nat) : DecryptResult × Nat :=
  if ciphertext.length = 0 then
    (DecryptResult.ok [], decNonce)
  else if ciphertext.length < nonceSize then
    (DecryptResult.panicked shortCiphertextPanic, decNonce)
  else
    let recvSeq := beUint64 (ciphertext.take nonceSize)
    let added := (decNonce + 1) % u64
    let lastSeq := (added + (u64 - 1)) % u64
    if recvSeq ≤ lastSeq then
      (DecryptResult.rejected, added)
    else
      let d2 := if added = lastSeq then recvSeq % u64 else added
      match dec with
      | none => (DecryptResult.panicked nilCipherStatePanic, d2)
      | some cs =>
        match aead.decrypt cs recvSeq [] (ciphertext.drop nonceSize) with
        | some pt => (DecryptResult.ok pt, d2)
        | none => (DecryptResult.decErr, d2)

/-! ## Helper lemmas -/

theorem beUint64_putUint64BE (v : Nat) : beUint64 (putUint64BE v) = v % u64 := by
  simp [beUint64, putUint64BE, u64]
  omega

theorem take_nonceSize_append (v : Nat) (t : List Nat) :
    (putUint64BE v ++ t).take nonceSize = putUint64BE v := by
  simp [putUint64BE, nonceSize]

theorem drop_nonceSize_append (v : Nat) (t : List Nat) :
    (putUint64BE v ++ t).drop nonceSize = t := by
  simp [putUint64BE, nonceSize]

theorem length_putUint64BE (v : Nat) : (putUint64BE v).length = 8 := by
  simp [putUint64BE]

/-- `atomic.AddUint64(&d, 1) - 1` recovers `d` in `uint64` arithmetic. -/
theorem lastSeq_eq (d : Nat) (h : d < u64) : ((d + 1) % u64 + (u64 - 1)) % u64 = d := by
  unfold u64 at *
  omega

/-- After the unconditional add, the counter can never equal `lastSeq`
again, so the compare-and-swap of `DecryptUnsafe` never fires. -/
theorem cas_never (d : Nat) : (d + 1) % u64 ≠ d := by
  unfold u64
  omega

theorem DecryptUnsafe_eq_core (aead : AEAD) (ns : Noise) (ct : List Nat) :
    DecryptUnsafe aead ns ct =
      ((decryptCore aead ns.dec ns.decNonce ct).1,
       { ns with decNonce := (decryptCore aead ns.dec ns.decNonce ct).2 }) := by
  unfold DecryptUnsafe decryptCore
  dsimp only
  split_ifs <;>
    first
      | rfl
      | (cases hdec : ns.dec <;> dsimp only [hdec] <;>
          first
            | rfl
            | (rename_i cs
               cases hpt : aead.decrypt cs (beUint64 (List.take nonceSize ct)) []
                   (List.drop nonceSize ct) <;>
                 dsimp only [hpt] <;> rfl))

/-- With an in-range counter, `DecryptUnsafe` on a long-enough input
compares the received sequence against the pre-add counter value, and the
dead compare-and-swap leaves the counter at its incremented value. -/
theorem DecryptUnsafe_char (aead : AEAD) (ns : Noise) (ct : List Nat)
    (h8 : nonceSize ≤ ct.length) (hlt : ns.decNonce < u64) :
    DecryptUnsafe aead ns ct =
      (if beUint64 (ct.take nonceSize) ≤ ns.decNonce then
        (DecryptResult.rejected, { ns with decNonce := (ns.decNonce + 1) % u64 })
       else
        match ns.dec with
        | none => (DecryptResult.panicked nilCipherStatePanic,
                   { ns with decNonce := (ns.decNonce + 1) % u64 })
        | some cs =>
          match aead.decrypt cs (beUint64 (ct.take nonceSize)) [] (ct.drop nonceSize) with
          | some pt => (DecryptResult.ok pt, { ns with decNonce := (ns.decNonce + 1) % u64 })
          | none => (DecryptResult.decErr, { ns with decNonce := (ns.decNonce + 1) % u64 })) := by
  have h0 : ¬ ct.length = 0 := by
    simp [nonceSize] at h8
    omega
  have h1 : ¬ ct.length < nonceSize := by omega
  rw [DecryptUnsafe]
  simp only [h0, if_false, h1, lastSeq_eq ns.decNonce hlt, cas_never ns.decNonce, if_false]

theorem DecryptUnsafe_reject (aead : AEAD) (ns : Noise) (ct : List Nat)
    (h8 : nonceSize ≤ ct.length) (hlt : ns.decNonce < u64)
    (hle : beUint64 (ct.take nonceSize) ≤ ns.decNonce) :
    DecryptUnsafe aead ns ct =
      (DecryptResult.rejected, { ns with decNonce := (ns.decNonce + 1) % u64 }) := by
  rw [DecryptUnsafe_char aead ns ct h8 hlt, if_pos hle]

theorem DecryptUnsafe_accept (aead : AEAD) (ns : Noise) (ct : List Nat)
    (cs : CipherState) (pt : List Nat)
    (h8 : nonceSize ≤ ct.length) (hlt : ns.decNonce < u64)
    (hgt : ns.decNonce < beUint64 (ct.take nonceSize))
    (hdec : ns.dec = some cs)
    (hpt : aead.decrypt cs (beUint64 (ct.take nonceSize)) [] (ct.drop nonceSize) = some pt) :
    DecryptUnsafe aead ns ct =
      (DecryptResult.ok pt, { ns with decNonce := (ns.decNonce + 1) % u64 }) := by
  rw [DecryptUnsafe_char aead ns ct h8 hlt, if_neg (by omega), hdec]
  simp [hpt]

theorem EncryptUnsafe_snd (aead : AEAD) (ns : Noise) (pt : List Nat) :
    (EncryptUnsafe aead ns pt).2 = { ns with encNonce := (ns.encNonce + 1) % u64 } := by
  cases h : ns.enc <;> simp [EncryptUnsafe, h]

theorem EncryptUnsafe_fst (aead : AEAD) (ns : Noise) (pt : List Nat) (cs : CipherState)
    (h : ns.enc = some cs) :
    (EncryptUnsafe aead ns pt).1 =
      some (putUint64BE ((ns.encNonce + 1) % u64) ++
            aead.encrypt cs ((ns.encNonce + 1) % u64) [] pt) := by
  simp [EncryptUnsafe, h]

theorem EncryptUnsafe_fst_eq (aead : AEAD) (ns ms : Noise) (pt : List Nat)
    (he : ns.enc = ms.enc) (hen : ns.encNonce = ms.encNonce) :
    (EncryptUnsafe aead ns pt).1 = (EncryptUnsafe aead ms pt).1 := by
  unfold EncryptUnsafe
  dsimp only
  rw [he, hen]
  cases ms.enc <;> rfl

theorem iterEnc_enc (aead : AEAD) (pts : Nat → List Nat) (ns : Noise) (k : Nat) :
    (iterEnc aead pts ns k).enc = ns.enc := by
  induction k with
  | zero => rfl
  | succ k ih => rw [iterEnc, EncryptUnsafe_snd]; exact ih

theorem iterEnc_encNonce (aead : AEAD) (pts : Nat → List Nat) (ns : Noise)
    (h0 : ns.encNonce = 0) (k : Nat) :
    (iterEnc aead pts ns k).encNonce = k % u64 := by
  induction k with
  | zero => simpa [iterEnc] using h0
  | succ k ih =>
    rw [iterEnc, EncryptUnsafe_snd]
    simp only [ih]
    unfold u64
    omega

theorem decryptCore_fst_ne_short (aead : AEAD) (dec : Option CipherState)
    (d : Nat) (ct : List Nat) (h8 : nonceSize ≤ ct.length) :
    (decryptCore aead dec d ct).1 ≠ DecryptResult.panicked shortCiphertextPanic := by
  have h0 : ¬ ct.length = 0 := by
    simp [nonceSize] at h8
    omega
  have h1 : ¬ ct.length < nonceSize := by omega
  unfold decryptCore
  dsimp only
  rw [if_neg h0, if_neg h1]
  split_ifs
  · simp
  all_goals
    cases dec <;> dsimp only
  any_goals
    (intro h
     rw [DecryptResult.panicked.injEq] at h
     exact absurd h (by decide))
  all_goals
    rename_i cs
    cases hpt : aead.decrypt cs (beUint64 (List.take nonceSize ct)) []
        (List.drop nonceSize ct) <;> simp [hpt]

/-! ## The claims -/

/-- C1: the spec claims a non-empty transport message is accepted iff its
embedded counter strictly exceeds the highest counter previously accepted
on that direction, all lower-or-equal counters being rejected.  The code
violates this: from a fresh transport channel, the message with counter 5
is accepted (making 5 the highest accepted counter), yet the message with
counter 3 ≤ 5 is then also accepted and its plaintext returned, because
the comparison value `lastSeq` is the (unconditionally incremented) count
of decrypt calls — here 1 — rather than the accepted high-water-mark 5:
the compare-and-swap meant to store 5 compares against a value the
preceding add already destroyed, so it never fires. -/
theorem C1_stale_counter_accepted :
    (DecryptUnsafe idAEAD transportChannel (putUint64BE 5 ++ [1, 2, 3])).1
      = DecryptResult.ok [1, 2, 3] ∧
    (DecryptUnsafe idAEAD
        (DecryptUnsafe idAEAD transportChannel (putUint64BE 5 ++ [1, 2, 3])).2
        (putUint64BE 3 ++ [7, 8])).1
      = DecryptResult.ok [7, 8] := by
  decide

/-- C2: the spec claims that decrypting a ciphertext once (accepted) and
feeding the identical ciphertext again is always rejected with no
plaintext.  The code violates this whenever the accepted counter left a
gap: the receiver below has previously accepted the message with counter
10 (its receive counter then holds 1, the call count), the peer encrypts
one more message — embedded counter 11 — and both the first decrypt AND
the replay of the identical ciphertext return the plaintext, since
11 > 1 and 11 > 2. -/
theorem C2_identical_ciphertext_replay_accepted :
    (DecryptUnsafe idAEAD transportChannel (putUint64BE 10 ++ [0])).1
      = DecryptResult.ok [0] ∧
    (EncryptUnsafe idAEAD replaySender [42]).1 = some (putUint64BE 11 ++ [42]) ∧
    (DecryptUnsafe idAEAD replayReceiver (putUint64BE 11 ++ [42])).1
      = DecryptResult.ok [42] ∧
    (DecryptUnsafe idAEAD
        (DecryptUnsafe idAEAD replayReceiver (putUint64BE 11 ++ [42])).2
        (putUint64BE 11 ++ [42])).1
      = DecryptResult.ok [42] := by
  decide

/-- C3: the spec claims that on a successful decrypt of counter R the
stored receive high-water-mark is advanced to R by the compare-and-swap
against L.  The code violates this: from a fresh transport channel,
decrypting the valid message with counter R = 5 succeeds but leaves the
stored counter at 1 (= L + 1 from the unconditional add), not 5 — the
compare-and-swap `CompareAndSwapUint64(&ns.decNonce, lastSeq, recvSeq)`
compares against L while the counter already holds L + 1, so it never
succeeds. -/
theorem C3_high_water_mark_not_advanced :
    (DecryptUnsafe idAEAD transportChannel (putUint64BE 5 ++ [9])).1
      = DecryptResult.ok [9] ∧
    (DecryptUnsafe idAEAD transportChannel (putUint64BE 5 ++ [9])).2.decNonce = 1 ∧
    ¬ (DecryptUnsafe idAEAD transportChannel (putUint64BE 5 ++ [9])).2.decNonce = 5 := by
  decide

/-- C4: on a transport-mode channel with send counter 0, the i-th (0-based)
of N consecutive `EncryptUnsafe` calls returns exactly the 8-byte
big-endian encoding of counter i+1 followed by the AEAD encryption of that
call's plaintext under the send cipher state with nonce i+1 and empty
associated data; the embedded counter of the i-th output is i+1, so across
the N calls the counters are 1, 2, …, N, strictly increasing with no
duplicates. -/
theorem C4_encrypt_counters_sequential (aead : AEAD) (pts : Nat → List Nat)
    (ns : Noise) (cs : CipherState)
    (henc : ns.enc = some cs) (h0 : ns.encNonce = 0)
    (N i : Nat) (hN : N < u64) (hi : i < N) :
    (EncryptUnsafe aead (iterEnc aead pts ns i) (pts i)).1
      = some (putUint64BE (i + 1) ++ aead.encrypt cs (i + 1) [] (pts i)) ∧
    beUint64 ((putUint64BE (i + 1) ++ aead.encrypt cs (i + 1) [] (pts i)).take nonceSize)
      = i + 1 := by
  have hmod : (i % u64 + 1) % u64 = i + 1 := by
    unfold u64 at *
    omega
  constructor
  · rw [EncryptUnsafe_fst aead _ (pts i) cs (by rw [iterEnc_enc]; exact henc),
        iterEnc_encNonce aead pts ns h0 i, hmod]
  · rw [take_nonceSize_append, beUint64_putUint64BE]
    unfold u64 at *
    omega

/-- C4 witness: the third call (i = 2) of N = 3 consecutive encryptions on
the concrete fresh channel emits counter 3. -/
theorem C4_encrypt_counters_sequential_witness :
    (EncryptUnsafe idAEAD (iterEnc idAEAD (fun _ => [9]) transportChannel 2) [9]).1
      = some (putUint64BE 3 ++ idAEAD.encrypt ⟨1⟩ 3 [] [9]) ∧
    beUint64 ((putUint64BE 3 ++ idAEAD.encrypt ⟨1⟩ 3 [] [9]).take nonceSize) = 3 :=
  C4_encrypt_counters_sequential idAEAD (fun _ => [9]) transportChannel ⟨1⟩ rfl rfl 3 2
    (by unfold u64; omega) (by omega)

/-- C5: on a fresh transport-mode channel, decrypting the valid message
with counter 2 first succeeds and returns its plaintext, and the
subsequent decrypt of the valid message with counter 1 is rejected as
stale, with no plaintext and no error. -/
theorem C5_reorder_then_stale_rejected (aead : AEAD) (ns : Noise)
    (cs : CipherState) (p1 p2 : List Nat)
    (hdec : ns.dec = some cs) (hn : ns.decNonce = 0)
    (hrt : ∀ n pt, aead.decrypt cs n [] (aead.encrypt cs n [] pt) = some pt) :
    (DecryptUnsafe aead ns (putUint64BE 2 ++ aead.encrypt cs 2 [] p2)).1
      = DecryptResult.ok p2 ∧
    (DecryptUnsafe aead
        (DecryptUnsafe aead ns (putUint64BE 2 ++ aead.encrypt cs 2 [] p2)).2
        (putUint64BE 1 ++ aead.encrypt cs 1 [] p1)).1
      = DecryptResult.rejected := by
  have hlen2 : nonceSize ≤ (putUint64BE 2 ++ aead.encrypt cs 2 [] p2).length := by
    simp [length_putUint64BE, nonceSize]
  have hlen1 : nonceSize ≤ (putUint64BE 1 ++ aead.encrypt cs 1 [] p1).length := by
    simp [length_putUint64BE, nonceSize]
  have h2 : beUint64 ((putUint64BE 2 ++ aead.encrypt cs 2 [] p2).take nonceSize) = 2 := by
    rw [take_nonceSize_append, beUint64_putUint64BE]
    unfold u64
    omega
  have h1 : beUint64 ((putUint64BE 1 ++ aead.encrypt cs 1 [] p1).take nonceSize) = 1 := by
    rw [take_nonceSize_append, beUint64_putUint64BE]
    unfold u64
    omega
  have e1 : DecryptUnsafe aead ns (putUint64BE 2 ++ aead.encrypt cs 2 [] p2)
      = (DecryptResult.ok p2, { ns with decNonce := (ns.decNonce + 1) % u64 }) := by
    apply DecryptUnsafe_accept aead ns _ cs p2 hlen2
      (by rw [hn]; unfold u64; omega) (by rw [h2, hn]; omega) hdec
    rw [h2, drop_nonceSize_append, hrt]
  refine ⟨by rw [e1], ?_⟩
  rw [e1]
  have e2 : DecryptUnsafe aead { ns with decNonce := (ns.decNonce + 1) % u64 }
      (putUint64BE 1 ++ aead.encrypt cs 1 [] p1)
      = (DecryptResult.rejected,
         { ns with decNonce := (((ns.decNonce + 1) % u64 + 1) % u64) }) := by
    apply DecryptUnsafe_reject aead _ _ hlen1
    · simp only
      unfold u64
      omega
    · simp only [h1, hn]
      unfold u64
      omega
  rw [e2]

/-- C5 witness: the reordering scenario on the concrete fresh channel with
the trivial AEAD. -/
theorem C5_reorder_then_stale_rejected_witness :
    (DecryptUnsafe idAEAD transportChannel
        (putUint64BE 2 ++ idAEAD.encrypt ⟨2⟩ 2 [] [5])).1
      = DecryptResult.ok [5] ∧
    (DecryptUnsafe idAEAD
        (DecryptUnsafe idAEAD transportChannel
          (putUint64BE 2 ++ idAEAD.encrypt ⟨2⟩ 2 [] [5])).2
        (putUint64BE 1 ++ idAEAD.encrypt ⟨2⟩ 1 [] [4])).1
      = DecryptResult.rejected :=
  C5_reorder_then_stale_rejected idAEAD transportChannel ⟨2⟩ [4] [5] rfl rfl
    (fun _ _ => rfl)

/-- C6: decrypting an empty input returns an empty plaintext with no error
and leaves the whole channel state — in particular the receive counter —
unchanged. -/
theorem C6_empty_input_noop (aead : AEAD) (ns : Noise) :
    DecryptUnsafe aead ns [] = (DecryptResult.ok [], ns) := by
  rfl

/-- C7: a non-empty input shorter than 8 bytes makes `DecryptUnsafe` panic
(with the short-ciphertext message, the state untouched) rather than
return a recoverable error, and an input of at least 8 bytes never reaches
that abort branch. -/
theorem C7_short_input_panics (aead : AEAD) (ns : Noise) (ct : List Nat) :
    (ct ≠ [] → ct.length < nonceSize →
      DecryptUnsafe aead ns ct = (DecryptResult.panicked shortCiphertextPanic, ns)) ∧
    (nonceSize ≤ ct.length →
      (DecryptUnsafe aead ns ct).1 ≠ DecryptResult.panicked shortCiphertextPanic) := by
  constructor
  · intro hne hlt
    have h0 : ¬ ct.length = 0 := fun h => hne (List.length_eq_zero.mp h)
    rw [DecryptUnsafe, if_neg h0, if_pos hlt]
  · intro h8
    rw [DecryptUnsafe_eq_core]
    exact decryptCore_fst_ne_short aead ns.dec ns.decNonce ct h8

/-- C7 witness: a 3-byte input panics with the short-ciphertext message; an
8-byte input does not. -/
theorem C7_short_input_panics_witness :
    DecryptUnsafe idAEAD transportChannel [1, 2, 3]
      = (DecryptResult.panicked shortCiphertextPanic, transportChannel) ∧
    (DecryptUnsafe idAEAD transportChannel [0, 0, 0, 0, 0, 0, 0, 9]).1
      ≠ DecryptResult.panicked shortCiphertextPanic :=
  ⟨(C7_short_input_panics idAEAD transportChannel [1, 2, 3]).1 (by decide) (by decide),
   (C7_short_input_panics idAEAD transportChannel [0, 0, 0, 0, 0, 0, 0, 9]).2 (by decide)⟩

/-- C8: producing (`HandshakeMessage`) or consuming (`ProcessMessage`) a
handshake message stores the derived cipher-state pair exactly on the
pattern's final step — any earlier step leaves `enc` and `dec` untouched —
and the assignment is swapped between the two operations: the producer
stores the derived pair as (receive, send) while the consumer stores the
same pair as (send, receive), so the producer's send state is the
consumer's receive state and vice versa. -/
theorem C8_final_step_cipher_states_swapped
    (wm : Nat → Option (List Nat × CipherState × CipherState))
    (rm : Nat → List Nat → Option (CipherState × CipherState))
    (nsA nsB : Noise) (res : List Nat) (c1 c2 : CipherState)
    (hA : nsA.hsIdx + 1 = nsA.patternLen)
    (hB : nsB.hsIdx + 1 = nsB.patternLen)
    (hwm : wm nsA.hsIdx = some (res, c1, c2))
    (hrm : rm nsB.hsIdx res = some (c1, c2)) :
    (∀ ns : Noise, (ns.hsIdx : Int) < (ns.patternLen : Int) - 1 →
      ∀ r ns2, HandshakeMessage wm ns = some (r, ns2) →
        ns2.enc = ns.enc ∧ ns2.dec = ns.dec) ∧
    (∀ ns ns2 : Noise, ∀ msg, (ns.hsIdx : Int) < (ns.patternLen : Int) - 1 →
      ProcessMessage rm ns msg = some ns2 →
        ns2.enc = ns.enc ∧ ns2.dec = ns.dec) ∧
    (∃ nsA2 nsB2 : Noise,
      HandshakeMessage wm nsA = some (res, nsA2) ∧
      ProcessMessage rm nsB res = some nsB2 ∧
      nsA2.dec = some c1 ∧ nsA2.enc = some c2 ∧
      nsB2.enc = some c1 ∧ nsB2.dec = some c2 ∧
      nsA2.enc = nsB2.dec ∧ nsA2.dec = nsB2.enc) := by
  refine ⟨?_, ?_, ?_⟩
  · intro ns h r ns2 hmsg
    unfold HandshakeMessage at hmsg
    rw [if_pos h] at hmsg
    cases hw : wm ns.hsIdx with
    | none => rw [hw] at hmsg; cases hmsg
    | some t =>
      rw [hw] at hmsg
      simp only [Option.some.injEq, Prod.mk.injEq] at hmsg
      rw [← hmsg.2]
      exact ⟨rfl, rfl⟩
  · intro ns ns2 msg h hmsg
    unfold ProcessMessage at hmsg
    rw [if_pos h] at hmsg
    cases hw : rm ns.hsIdx msg with
    | none => rw [hw] at hmsg; cases hmsg
    | some t =>
      rw [hw] at hmsg
      simp only [Option.some.injEq] at hmsg
      rw [← hmsg]
      exact ⟨rfl, rfl⟩
  · refine ⟨{ nsA with hsIdx := nsA.hsIdx + 1, dec := some c1, enc := some c2 },
            { nsB with hsIdx := nsB.hsIdx + 1, enc := some c1, dec := some c2 },
            ?_, ?_, rfl, rfl, rfl, rfl, rfl, rfl⟩
    · unfold HandshakeMessage
      rw [if_neg (by omega), hwm]
    · unfold ProcessMessage
      rw [if_neg (by omega), hrm]

/-- The `WriteMessage` oracle of a concrete final handshake step: message
index 1 of a two-message pattern yields message `[7]` and the split pair. -/
def wmFinal : Nat → Option (List Nat × CipherState × CipherState) := fun i =>
  if i = 1 then some ([7], ⟨3⟩, ⟨4⟩) else none

/-- The matching `ReadMessage` oracle of the consuming peer. -/
def rmFinal : Nat → List Nat → Option (CipherState × CipherState) := fun i msg =>
  if i = 1 ∧ msg = [7] then some (⟨3⟩, ⟨4⟩) else none

/-- A producing peer one step before the end of a two-message pattern. -/
def hsPeerA : Noise :=
  { pk := [], sk := [], init := true, patternLen := 2, hsIdx := 1,
    peerStatic := [], enc := none, dec := none, encNonce := 0, decNonce := 0 }

/-- The consuming peer, also one step before the end. -/
def hsPeerB : Noise :=
  { pk := [], sk := [], init := false, patternLen := 2, hsIdx := 1,
    peerStatic := [], enc := none, dec := none, encNonce := 0, decNonce := 0 }

/-- C8 witness: the final-step scenario at concrete peers and oracles. -/
theorem C8_final_step_cipher_states_swapped_witness :
    (∀ ns : Noise, (ns.hsIdx : Int) < (ns.patternLen : Int) - 1 →
      ∀ r ns2, HandshakeMessage wmFinal ns = some (r, ns2) →
        ns2.enc = ns.enc ∧ ns2.dec = ns.dec) ∧
    (∀ ns ns2 : Noise, ∀ msg, (ns.hsIdx : Int) < (ns.patternLen : Int) - 1 →
      ProcessMessage rmFinal ns msg = some ns2 →
        ns2.enc = ns.enc ∧ ns2.dec = ns.dec) ∧
    (∃ nsA2 nsB2 : Noise,
      HandshakeMessage wmFinal hsPeerA = some ([7], nsA2) ∧
      ProcessMessage rmFinal hsPeerB [7] = some nsB2 ∧
      nsA2.dec = some ⟨3⟩ ∧ nsA2.enc = some ⟨4⟩ ∧
      nsB2.enc = some ⟨3⟩ ∧ nsB2.dec = some ⟨4⟩ ∧
      nsA2.enc = nsB2.dec ∧ nsA2.dec = nsB2.enc) :=
  C8_final_step_cipher_states_swapped wmFinal rmFinal hsPeerA hsPeerB [7] ⟨3⟩ ⟨4⟩
    rfl rfl (by decide) (by decide)

/-- A channel whose handshake has not yet revealed the remote static key:
`PeerStatic()` is still empty. -/
def unrevealedChannel : Noise :=
  { pk := [], sk := [], init := true, patternLen := 3, hsIdx := 1,
    peerStatic := [], enc := none, dec := none, encNonce := 0, decNonce := 0 }

/-- C9 counterexample: the claim says `RemoteStatic` invoked before the
handshake revealed the peer's key fails with a StateError — a recoverable
typed error, not an abort.  On the code, the call panics (the nil
`PeerStatic()` bytes make `cipher.NewPubKey` fail and the error is fed to
`panic`), and no value is returned: there is no error return at all in the
function's signature. -/
theorem C9_remoteStatic_panics_counterexample :
    RemoteStatic unrevealedChannel = RemoteStaticResult.panicked invalidPubKeyError ∧
    ∀ pk, RemoteStatic unrevealedChannel ≠ RemoteStaticResult.ok pk := by
  constructor
  · rfl
  · intro pk h
    cases h

/-- C9 (amended): `RemoteStatic` returns the pinned or negotiated remote
static public key once the handshake has revealed it (the stored peer
static bytes form a key of the fixed length), and panics — aborts rather
than returning a recoverable typed error — when invoked before the
handshake has revealed the peer's key. -/
theorem C9_remoteStatic_amended (ns : Noise) :
    (ns.peerStatic.length = pubKeySize →
      RemoteStatic ns = RemoteStaticResult.ok ns.peerStatic) ∧
    (ns.peerStatic.length ≠ pubKeySize →
      RemoteStatic ns = RemoteStaticResult.panicked invalidPubKeyError) := by
  constructor <;> intro h <;> simp [RemoteStatic, NewPubKey, h]

/-- A channel whose handshake has revealed a (33-byte) remote static key. -/
def revealedChannel : Noise :=
  { pk := [], sk := [], init := true, patternLen := 3, hsIdx := 3,
    peerStatic := List.replicate 33 7, enc := some ⟨1⟩, dec := some ⟨2⟩,
    encNonce := 0, decNonce := 0 }

/-- C9 witness: the amended behaviour at a channel with a revealed key and
at one without. -/
theorem C9_remoteStatic_amended_witness :
    RemoteStatic revealedChannel = RemoteStaticResult.ok (List.replicate 33 7) ∧
    RemoteStatic unrevealedChannel = RemoteStaticResult.panicked invalidPubKeyError :=
  ⟨(C9_remoteStatic_amended revealedChannel).1 (by decide),
   (C9_remoteStatic_amended unrevealedChannel).2 (by decide)⟩

/-- C10: the two directions are state-disjoint.  `EncryptUnsafe` modifies
only the send counter (its entire state effect is the counter increment)
and reads only the send side: its output coincides on any two channels
that agree on the send cipher state and send counter, however much their
receive sides differ.  Dually, `DecryptUnsafe` modifies only the receive
counter, and its result and new counter coincide on any two channels that
agree on the receive cipher state and receive counter, however much their
send sides differ. -/
theorem C10_directions_state_disjoint (aead : AEAD) (ns : Noise)
    (pt ct : List Nat) :
    (EncryptUnsafe aead ns pt).2 = { ns with encNonce := (ns.encNonce + 1) % u64 } ∧
    (∀ ms : Noise, ns.enc = ms.enc → ns.encNonce = ms.encNonce →
      (EncryptUnsafe aead ns pt).1 = (EncryptUnsafe aead ms pt).1) ∧
    (DecryptUnsafe aead ns ct).2
      = { ns with decNonce := (DecryptUnsafe aead ns ct).2.decNonce } ∧
    (∀ ms : Noise, ns.dec = ms.dec → ns.decNonce = ms.decNonce →
      (DecryptUnsafe aead ns ct).1 = (DecryptUnsafe aead ms ct).1 ∧
      (DecryptUnsafe aead ns ct).2.decNonce = (DecryptUnsafe aead ms ct).2.decNonce) := by
  refine ⟨EncryptUnsafe_snd aead ns pt, ?_, ?_, ?_⟩
  · intro ms he hen
    exact EncryptUnsafe_fst_eq aead ns ms pt he hen
  · rw [DecryptUnsafe_eq_core]
  · intro ms hd hdn
    constructor <;> rw [DecryptUnsafe_eq_core, DecryptUnsafe_eq_core, hd, hdn]

/-- C10 witness: on the concrete fresh transport channel, the encrypt
output is unchanged when the receive side is replaced wholesale (cipher
state dropped, counter set to 77), and the decrypt result is unchanged
when the send side is replaced wholesale (cipher state dropped, counter
set to 55). -/
theorem C10_directions_state_disjoint_witness :
    (EncryptUnsafe idAEAD transportChannel [1]).2
      = { transportChannel with encNonce := (transportChannel.encNonce + 1) % u64 } ∧
    (EncryptUnsafe idAEAD transportChannel [1]).1
      = (EncryptUnsafe idAEAD
          { transportChannel with dec := none, decNonce := 77 } [1]).1 ∧
    (DecryptUnsafe idAEAD transportChannel [2, 2, 2, 2, 2, 2, 2, 2]).2
      = { transportChannel with
            decNonce := (DecryptUnsafe idAEAD transportChannel
              [2, 2, 2, 2, 2, 2, 2, 2]).2.decNonce } ∧
    (DecryptUnsafe idAEAD transportChannel [2, 2, 2, 2, 2, 2, 2, 2]).1
      = (DecryptUnsafe idAEAD
          { transportChannel with enc := none, encNonce := 55 }
          [2, 2, 2, 2, 2, 2, 2, 2]).1 :=
  ⟨(C10_directions_state_disjoint idAEAD transportChannel [1]
      [2, 2, 2, 2, 2, 2, 2, 2]).1,
   (C10_directions_state_disjoint idAEAD transportChannel [1]
      [2, 2, 2, 2, 2, 2, 2, 2]).2.1
     { transportChannel with dec := none, decNonce := 77 } rfl rfl,
   (C10_directions_state_disjoint idAEAD transportChannel [1]
      [2, 2, 2, 2, 2, 2, 2, 2]).2.2.1,
   ((C10_directions_state_disjoint idAEAD transportChannel [1]
      [2, 2, 2, 2, 2, 2, 2, 2]).2.2.2
     { transportChannel with enc := none, encNonce := 55 } rfl rfl).1⟩

end DmsgNoise
